import Mathlib

/-!
Shallow embedding of `src/dill/logging.py`: dill's tree-style pickling-trace
facility (`TraceAdapter`, `TraceFormatter`, the `trace` toggle function and
`TraceManager`).

Conventions of the embedding:

* Python lists used as stacks (`append` / `pop()` / `[-1]`) become Lean lists
  with the stack top at the head: `append x` is `x :: l`, `pop()` removes the
  head, `l[-1]` reads the head.  `pop()` on an empty list raises `IndexError`,
  modelled by `TraceErr.idxErr`.
* The trace-enabled session state (`pickler._trace_stack`,
  `pickler._size_stack`) is `SessState`; `pickler._id_to_name` is an
  association list with distinct keys (a Python dict keyed by `id(obj)`).
* The combined byte-offset query of lines 184-193 (`pickler._file_tell()`
  plus the current frame position, the whole block guarded by
  `suppress(AttributeError, TypeError)`) is abstracted into a single input
  `tell : Option Int`; `none` means the query was unavailable on this call.
* A call mutates state left to right and stops at the first uncaught
  exception, so `TraceOut` reports the records emitted before the exception,
  the state as mutated up to that point, and the exception if any.
* Object identities (`id(obj)`) are `Nat`; byte offsets are `Int` (Python
  integers are unbounded and the reported size delta is an exact difference).
-/

namespace DillLogging

/-- CPython `logging` level constant. -/
def CRITICAL : Nat := 50

/-- CPython `logging` level constant. -/
def ERROR : Nat := 40

/-- CPython `logging` level constant. -/
def WARNING : Nat := 30

/-- CPython `logging` level constant. -/
def INFO : Nat := 20

/-- CPython `logging` level constant. -/
def DEBUG : Nat := 10

/-- CPython `logging` level constant. -/
def NOTSET : Nat := 0

/-- `TRACE = (INFO + DEBUG) // 2` (line 69); equals 15. -/
def TRACE : Nat := (INFO + DEBUG) / 2

/-- CPython's `logging._nameToLevel` table (the standard level-name map that
line 71 copies into `_nameOrBoolToLevel`). -/
def nameToLevel (s : String) : Option Nat :=
  if s = "CRITICAL" then some CRITICAL
  else if s = "FATAL" then some CRITICAL
  else if s = "ERROR" then some ERROR
  else if s = "WARN" then some WARNING
  else if s = "WARNING" then some WARNING
  else if s = "INFO" then some INFO
  else if s = "DEBUG" then some DEBUG
  else if s = "NOTSET" then some NOTSET
  else none

/-- A positional argument of a `trace` call: Python distinguishes only
whether the last positional argument `is str` (line 175); anything else is a
traced object carrying an identity `id(obj)`. -/
inductive Arg where
  | strA (s : String)
  | objA (ident : Nat)
deriving DecidableEq

/-- The per-session stacks of a trace-enabled pickler:
`pickler._trace_stack` (object identities) and `pickler._size_stack`
(byte-offset snapshots), both initialised to `[]` by `trace_setup`
(lines 161-163).  Stack top at the head. -/
structure SessState where
  trace_stack : List Nat
  size_stack : List Int
deriving DecidableEq

/-- The trace-relevant payload of one emitted `LogRecord`: the `extra`
entries `depth`, `size` and `varname` set by `TraceAdapter.trace`
(lines 194-204), plus the message used by the formatter's line-kind test. -/
structure TraceRec where
  depth : Nat
  size : Option Int
  varname : Option String
  msg : String
deriving DecidableEq

/-- A Python exception escaping the tracing facility: `TypeError` raised at
lines 176-180, or `IndexError` from `list.pop()` on an empty list. -/
inductive TraceErr where
  | typeErr
  | idxErr
deriving DecidableEq

/-- Result of one `TraceAdapter.trace` call: the records emitted before any
exception, the session state as mutated so far, the (possibly consumed)
`_id_to_name` registry, and the escaping exception if any. -/
structure TraceOut where
  recs : List TraceRec
  st : SessState
  reg : List (Nat × String)
  err : Option TraceErr
deriving DecidableEq

/-- `pickler._id_to_name.pop(id(obj))` under `suppress(KeyError)`
(lines 198-199): look the key up and, when present, remove the entry. -/
def regPop (reg : List (Nat × String)) (k : Nat) : Option String × List (Nat × String) :=
  match reg.lookup k with
  | some v => (some v, reg.eraseP (fun p => p.1 == k))
  | none => (none, reg)

/-- `msg.startswith('#')` (line 173 and line 237): true exactly when the
first character of the message is the close marker `#`. -/
def startsWithHash (msg : String) : Bool :=
  match msg.data with
  | [] => false
  | c :: _ => c = '#'

/-- `TraceAdapter.trace` (lines 166-207), restricted to a trace-enabled
session (the two early returns of lines 167-171 for a pickler without
`_trace_stack`, or with `_trace_stack is None`, do not touch any state and
are outside this model).  Faithful to the source order:

1. `pushed_obj = msg.startswith('#')`;
2. on an OPEN line, raise `TypeError` when `obj is None` and the last
   positional argument is absent or a `str` (lines 175-180), otherwise push
   `id(obj)` on `_trace_stack`;
3. query the byte offset (`tell`); when available: on OPEN push it on
   `_size_stack` and, if `_size_stack` then has length 3, consume a registry
   entry for `id(obj)` as `varname` (lines 195-199); on CLOSE pop
   `_size_stack` (raising `IndexError` when empty) and report the difference
   as `size` (lines 200-202);
4. emit the record with `depth = len(_trace_stack)` (line 203);
5. on CLOSE, pop `_trace_stack` (line 207, raising `IndexError` when
   empty). -/
def TraceAdapter.trace (st : SessState) (reg : List (Nat × String)) (msg : String)
    (args : List Arg) (obj : Option Nat) (tell : Option Int) : TraceOut :=
  if startsWithHash msg then
    match tell with
    | some off =>
      match st.size_stack with
      | [] => ⟨[], st, reg, some .idxErr⟩
      | s0 :: zr =>
        let r : TraceRec := ⟨st.trace_stack.length, some (off - s0), none, msg⟩
        match st.trace_stack with
        | [] => ⟨[r], ⟨[], zr⟩, reg, some .idxErr⟩
        | _ :: tr => ⟨[r], ⟨tr, zr⟩, reg, none⟩
    | none =>
      let r : TraceRec := ⟨st.trace_stack.length, none, none, msg⟩
      match st.trace_stack with
      | [] => ⟨[r], st, reg, some .idxErr⟩
      | _ :: tr => ⟨[r], ⟨tr, st.size_stack⟩, reg, none⟩
  else
    match (match obj with
           | some n => some n
           | none =>
             match args.getLast? with
             | some (.objA n) => some n
             | _ => none) with
    | none => ⟨[], st, reg, some .typeErr⟩
    | some n =>
      let tr := n :: st.trace_stack
      match tell with
      | some off =>
        let zr := off :: st.size_stack
        let vr := if zr.length = 3 then regPop reg n else (none, reg)
        ⟨[⟨tr.length, none, vr.1, msg⟩], ⟨tr, zr⟩, vr.2, none⟩
      | none => ⟨[⟨tr.length, none, none, msg⟩], ⟨tr, st.size_stack⟩, reg, none⟩

/-- `TraceAdapter.roll_back` (lines 208-211): pop both stacks only when the
identity stack is nonempty and its top equals `id(obj)`.  The second
component records the `IndexError` raised by `_size_stack.pop()` when the
size stack is empty while the identity top matches (in that case
`_trace_stack` has already been popped).  The method contains no logging
call, so it never emits a record. -/
def TraceAdapter.roll_back (st : SessState) (ident : Nat) : SessState × Option TraceErr :=
  match st.trace_stack with
  | [] => (st, none)
  | top :: tr =>
    if ident = top then
      match st.size_stack with
      | [] => (⟨tr, []⟩, some .idxErr)
      | _ :: zr => (⟨tr, zr⟩, none)
    else (st, none)

/-- The character translation `ASCII_MAP` (line 77). -/
def asciiMapChar (c : Char) : Char :=
  if c = '│' then '|'
  else if c = '├' then '|'
  else if c = '┬' then '+'
  else if c = '└' then Char.ofNat 96
  else c

/-- `str.translate(ASCII_MAP)` (line 244): apply the character map to every
character (every mapped image is a single character). -/
def asciiTranslate (s : String) : String :=
  ⟨s.data.map asciiMapChar⟩

/-- `n * g` for a glyph string `g`: Python string repetition as used in
`(record.depth - 1)*"│"` (lines 238 and 242). -/
def glyphRep (g : String) (n : Nat) : String :=
  String.join (List.replicate n g)

/-- The single-quote character that `" as %r" % record.varname` (line 247)
puts around the variable name (Python `repr` of a simple string). -/
def sq : String :=
  String.singleton (Char.ofNat 39)

/-- Modelled from the spec: the external helper `_format_bytes_size` from
`dill._utils` (imported at line 66; `dill/_utils.py` is not part of the
sources) "converts a byte count to a human-readable magnitude + unit pair".
Modelled as the byte count with unit `B`; no theorem below depends on more
than the shape `(magnitude, unit)`. -/
def formatBytesSize (n : Int) : Int × String :=
  (n, "B")

/-- `TraceFormatter.format` (lines 234-251), reduced to the decoration it
computes: the `prefix` and `suffix` fields substituted into the format
string `"%(prefix)s%(message)s%(suffix)s"`.  A record with no `depth`
attribute behaves as depth 0 (`getattr(record, 'depth', 0)`, line 236);
`varname` and `size` are present exactly when the corresponding `Option` is
`some`.  `is_utf8` is the encoding test cached by the constructor
(lines 222-233). -/
def TraceFormatter.format (r : TraceRec) (is_utf8 : Bool) : String × String :=
  let pfx :=
    if r.depth > 0 then
      let p :=
        if startsWithHash r.msg then glyphRep "│" (r.depth - 1) ++ "└"
        else if r.depth = 1 then "┬"
        else glyphRep "│" (r.depth - 2) ++ "├┬"
      let p := if is_utf8 then p else asciiTranslate p ++ "-"
      p ++ " "
    else ""
  let sfx :=
    match r.varname with
    | some v => " as " ++ sq ++ v ++ sq
    | none =>
      match r.size with
      | some n => " [" ++ toString (formatBytesSize n).1 ++ " " ++ (formatBytesSize n).2 ++ "]"
      | none => ""
  (pfx, sfx)

/-- A balanced forest of enter/leave pairs: `node i e l cs rest` is an object
with identity `i`, entered when the byte offset is `e` and left when it is
`l`, whose serialization recursed into the children forest `cs`, followed by
the sibling forest `rest`.  This encodes exactly the balanced, strictly
nested call sequences the serialization engine produces. -/
inductive TForest where
  | nil : TForest
  | node (ident : Nat) (enterOff leaveOff : Int) (children rest : TForest)
deriving DecidableEq

/-- One instrumentation call of the serialization engine: an enter (OPEN
`trace` call) with the byte offset at that moment, or a leave (CLOSE `trace`
call, message starting with `#`) with the byte offset at that moment. -/
inductive Ev where
  | enterE (ident : Nat) (off : Int)
  | leaveE (off : Int)
deriving DecidableEq

/-- The enter/leave call sequence of a balanced forest, in source order. -/
def evsF : TForest → List Ev
  | .nil => []
  | .node i e l cs rest => .enterE i e :: (evsF cs ++ .leaveE l :: evsF rest)

/-- Perform one event as the corresponding `TraceAdapter.trace` call, on a
session whose byte-offset query works (`tell = some off`).  An enter passes
the object as the last positional argument (identity `i`); a leave passes a
`"# O"` message. -/
def stepEv (st : SessState) (reg : List (Nat × String)) : Ev → TraceOut
  | .enterE i off => TraceAdapter.trace st reg "O" [Arg.objA i] none (some off)
  | .leaveE off => TraceAdapter.trace st reg "# O" [] none (some off)

/-- Perform one event as the corresponding `TraceAdapter.trace` call on a
session whose byte-offset query is unavailable on every call
(`tell = none`): a never-seekable sink. -/
def stepEvN (st : SessState) (reg : List (Nat × String)) : Ev → TraceOut
  | .enterE i _ => TraceAdapter.trace st reg "O" [Arg.objA i] none none
  | .leaveE _ => TraceAdapter.trace st reg "# O" [] none none

/-- Accumulated result of a sequence of trace calls. -/
structure RunOut where
  recs : List TraceRec
  st : SessState
  reg : List (Nat × String)
  ok : Bool
deriving DecidableEq

/-- Run a sequence of enter/leave calls with the byte-offset query working;
an escaping exception aborts the rest of the sequence (`ok = false`). -/
def runEvs : SessState → List (Nat × String) → List Ev → RunOut
  | st, reg, [] => ⟨[], st, reg, true⟩
  | st, reg, e :: es =>
    match stepEv st reg e with
    | ⟨rs, st1, reg1, some _⟩ => ⟨rs, st1, reg1, false⟩
    | ⟨rs, st1, reg1, none⟩ =>
      let r := runEvs st1 reg1 es
      ⟨rs ++ r.recs, r.st, r.reg, r.ok⟩

/-- Run a sequence of enter/leave calls with the byte-offset query
unavailable on every call. -/
def runEvsN : SessState → List (Nat × String) → List Ev → RunOut
  | st, reg, [] => ⟨[], st, reg, true⟩
  | st, reg, e :: es =>
    match stepEvN st reg e with
    | ⟨rs, st1, reg1, some _⟩ => ⟨rs, st1, reg1, false⟩
    | ⟨rs, st1, reg1, none⟩ =>
      let r := runEvsN st1 reg1 es
      ⟨rs ++ r.recs, r.st, r.reg, r.ok⟩

/-- The records a balanced forest is expected to produce when run at base
depth `d` with working byte offsets and an empty name registry: each OPEN
carries its 1-based nesting position as `depth`, the matching CLOSE carries
the same pre-pop depth and `size = leaveOff - enterOff`. -/
def expF (d : Nat) : TForest → List TraceRec
  | .nil => []
  | .node _ e l cs rest =>
    ⟨d + 1, none, none, "O"⟩ ::
      (expF (d + 1) cs ++ ⟨d + 1, some (l - e), none, "# O"⟩ :: expF d rest)

/-- The records a balanced forest is expected to produce at base depth `d`
when the byte-offset query is unavailable on every call: the same depths,
and never a `size`. -/
def expFN (d : Nat) : TForest → List TraceRec
  | .nil => []
  | .node _ _ _ cs rest =>
    ⟨d + 1, none, none, "O"⟩ ::
      (expFN (d + 1) cs ++ ⟨d + 1, none, none, "# O"⟩ :: expFN d rest)

/-- One adapter operation for invariant checking: a full `trace` call or a
`roll_back` call. -/
inductive Op where
  | traceOp (msg : String) (args : List Arg) (obj : Option Nat) (tell : Option Int)
  | rollbackOp (ident : Nat)
deriving DecidableEq

/-- Whether the operation's byte-offset query succeeds (`roll_back` performs
no query). -/
def opTellOk : Op → Bool
  | .traceOp _ _ _ tell => tell.isSome
  | .rollbackOp _ => true

/-- Run a sequence of adapter operations on a session; an escaping
exception aborts the rest of the sequence, leaving the state as mutated up
to that point. -/
def runOps : SessState → List (Nat × String) → List Op → SessState × List (Nat × String)
  | st, reg, [] => (st, reg)
  | st, reg, .traceOp msg args obj tell :: ops =>
    match TraceAdapter.trace st reg msg args obj tell with
    | ⟨_, st1, reg1, some _⟩ => (st1, reg1)
    | ⟨_, st1, reg1, none⟩ => runOps st1 reg1 ops
  | st, reg, .rollbackOp i :: ops =>
    match TraceAdapter.roll_back st i with
    | (st1, some _) => (st1, reg)
    | (st1, none) => runOps st1 reg ops

/-- Kind of a logging handler attached to dill's logger: the module-level
stderr handler (line 256), a `StreamHandler` wrapping a caller-supplied
stream (line 321), or a `FileHandler` that opened the named file itself
(line 323). -/
inductive HandlerKind where
  | stderrK
  | streamK (sid : Nat)
  | fileK (path : String) (mode : String)
deriving DecidableEq

/-- The `file` argument of `TraceManager`: a caller-supplied stream (an
object with a `write` attribute, line 316) or a path-like value. -/
inductive FileArg where
  | stream (sid : Nat)
  | path (p : String)
deriving DecidableEq

/-- `TraceManager.__init__` fields (lines 312-316): `redirect` and
`file_is_stream` are derived from `file` exactly as in the source. -/
structure TraceManager where
  file : Option FileArg
  mode : String
deriving DecidableEq

/-- `self.redirect = file is not None` (line 315). -/
def TraceManager.redirect (tm : TraceManager) : Bool :=
  tm.file.isSome

/-- `self.file_is_stream = hasattr(file, 'write')` (line 316). -/
def TraceManager.file_is_stream (tm : TraceManager) : Bool :=
  match tm.file with
  | some (.stream _) => true
  | _ => false

/-- The identity of the module-level `stderr_handler` (line 256). -/
def stderrId : Nat := 0

/-- The state of dill's logger and its handlers that `TraceManager`
manipulates: the logger's own level, the root logger's level (consulted by
`getEffectiveLevel` when the logger's level is `NOTSET = 0`), the list of
attached handler identities, the kind of each allocated handler, a counter
for allocating fresh handler identities, and the handlers whose `close()`
has been called. -/
structure LogWorld where
  level : Nat
  rootLevel : Nat
  handlers : List Nat
  kinds : List (Nat × HandlerKind)
  nextId : Nat
  closed : List Nat
deriving DecidableEq

/-- `Logger.addHandler`: append the handler unless already attached. -/
def addHandler (hs : List Nat) (h : Nat) : List Nat :=
  if h ∈ hs then hs else hs ++ [h]

/-- `Logger.removeHandler`: remove the handler if attached. -/
def removeHandler (hs : List Nat) (h : Nat) : List Nat :=
  hs.erase h

/-- `Logger.getEffectiveLevel`: the logger's own level if set, else the
root logger's level (dill's logger is a direct child of the root). -/
def getEffectiveLevel (w : LogWorld) : Nat :=
  if w.level ≠ 0 then w.level else w.rootLevel

/-- The runtime attributes `__enter__` stores on the manager: the handler
it created (when redirecting) and `self.old_level` (line 326). -/
structure TMRun where
  handlerId : Option Nat
  oldLevel : Nat
deriving DecidableEq

/-- `TraceManager.__enter__` (lines 317-328): when redirecting, create a
`StreamHandler` for a stream or a `FileHandler` (which opens the file) for a
path, swap it in for the stderr handler; then remember the effective level
and set the level to `TRACE`. -/
def TraceManager.enter (tm : TraceManager) (w : LogWorld) : LogWorld × TMRun :=
  match tm.file with
  | none => ({ w with level := TRACE }, ⟨none, getEffectiveLevel w⟩)
  | some fa =>
    let h := w.nextId
    let kind := match fa with
      | .stream sid => HandlerKind.streamK sid
      | .path p => HandlerKind.fileK p tm.mode
    let w1 := { w with
      handlers := addHandler (removeHandler w.handlers stderrId) h,
      kinds := (h, kind) :: w.kinds,
      nextId := w.nextId + 1 }
    ({ w1 with level := TRACE }, ⟨some h, getEffectiveLevel w1⟩)

/-- `TraceManager.__exit__` (lines 329-335): restore the remembered level;
when redirecting, swap the stderr handler back in and close the created
handler only when the `file` argument was not a caller-supplied stream. -/
def TraceManager.exit (tm : TraceManager) (r : TMRun) (w : LogWorld) : LogWorld :=
  let w1 := { w with level := r.oldLevel }
  match r.handlerId with
  | none => w1
  | some h =>
    let w2 := { w1 with handlers := addHandler (removeHandler w1.handlers h) stderrId }
    if tm.file_is_stream then w2 else { w2 with closed := h :: w2.closed }

/-- The argument of the module-level `trace` function (line 259): a boolean,
a string, a stream, a path-like object, or the default `None`. -/
inductive TraceCallArg where
  | boolA (b : Bool)
  | strA (s : String)
  | streamA (sid : Nat)
  | pathA (p : String)
  | noneA
deriving DecidableEq

/-- `_nameOrBoolToLevel.get(arg) if isinstance(arg, (bool, str)) else None`
(line 303): the standard name table extended with `'TRACE'`, `False ↦
WARNING` and `True ↦ TRACE` (lines 71-74). -/
def nameOrBoolToLevel : TraceCallArg → Option Nat
  | .boolA false => some WARNING
  | .boolA true => some TRACE
  | .strA s => if s = "TRACE" then some TRACE else nameToLevel s
  | _ => none

/-- The module-level `trace` function (lines 259-308): when the argument
resolves to a level, set the logger's level and return `None`; otherwise
return a `TraceManager` for the argument, with a string becoming the path
of a file to open on entry. -/
def trace (arg : TraceCallArg) (mode : String) (w : LogWorld) :
    LogWorld × Option TraceManager :=
  match nameOrBoolToLevel arg with
  | some l => ({ w with level := l }, none)
  | none =>
    let fa : Option FileArg :=
      match arg with
      | .strA s => some (.path s)
      | .pathA p => some (.path p)
      | .streamA sid => some (.stream sid)
      | _ => none
    (w, some { file := fa, mode := mode })

/-! ## Helper lemmas -/

theorem startsWithHash_O : startsWithHash "O" = false := by decide

theorem startsWithHash_closeO : startsWithHash "# O" = true := by decide

theorem stepEv_enter (S : List Nat) (Z : List Int) (i : Nat) (off : Int) :
    stepEv ⟨S, Z⟩ [] (.enterE i off) =
      ⟨[⟨S.length + 1, none, none, "O"⟩], ⟨i :: S, off :: Z⟩, [], none⟩ := by
  simp [stepEv, TraceAdapter.trace, startsWithHash_O, regPop, List.getLast?]

theorem stepEv_leave (S : List Nat) (Z : List Int) (reg : List (Nat × String))
    (i : Nat) (s off : Int) :
    stepEv ⟨i :: S, s :: Z⟩ reg (.leaveE off) =
      ⟨[⟨S.length + 1, some (off - s), none, "# O"⟩], ⟨S, Z⟩, reg, none⟩ := by
  simp [stepEv, TraceAdapter.trace, startsWithHash_closeO]

theorem runEvs_append (xs : List Ev) :
    ∀ (st : SessState) (reg : List (Nat × String)) (rs : List TraceRec)
      (st1 : SessState) (reg1 : List (Nat × String)) (ys : List Ev),
    runEvs st reg xs = ⟨rs, st1, reg1, true⟩ →
    runEvs st reg (xs ++ ys) =
      ⟨rs ++ (runEvs st1 reg1 ys).recs, (runEvs st1 reg1 ys).st,
       (runEvs st1 reg1 ys).reg, (runEvs st1 reg1 ys).ok⟩ := by
  induction xs with
  | nil =>
    intro st reg rs st1 reg1 ys h
    simp only [runEvs, RunOut.mk.injEq] at h
    obtain ⟨h1, h2, h3, -⟩ := h
    subst h1; subst h2; subst h3
    simp
  | cons e es ih =>
    intro st reg rs st1 reg1 ys h
    simp only [List.cons_append, runEvs] at h ⊢
    rcases hs : stepEv st reg e with ⟨r1, sta, rga, err⟩
    rw [hs] at h
    cases err with
    | some er => simp at h
    | none =>
      simp only [] at h ⊢
      rcases hr : runEvs sta rga es with ⟨rs2, st2, reg2, ok2⟩
      rw [hr] at h
      simp only [RunOut.mk.injEq] at h
      obtain ⟨h1, h2, h3, h4⟩ := h
      subst h2; subst h3; subst h4; subst h1
      have h5 := ih sta rga rs2 st2 reg2 ys hr
      rw [show es.append ys = es ++ ys from rfl, h5]
      simp [List.append_assoc]

theorem runEvs_evsF (f : TForest) :
    ∀ (S : List Nat) (Z : List Int),
    runEvs ⟨S, Z⟩ [] (evsF f) = ⟨expF S.length f, ⟨S, Z⟩, [], true⟩ := by
  induction f with
  | nil =>
    intro S Z
    simp [evsF, expF, runEvs]
  | node i e l cs rest ihc ihr =>
    intro S Z
    rw [evsF, expF]
    simp only [runEvs, stepEv_enter]
    have hc : runEvs ⟨i :: S, e :: Z⟩ [] (evsF cs) =
        ⟨expF (S.length + 1) cs, ⟨i :: S, e :: Z⟩, [], true⟩ := by
      have h0 := ihc (i :: S) (e :: Z)
      simpa using h0
    rw [runEvs_append (evsF cs) _ _ _ _ _ _ hc]
    simp only [runEvs, stepEv_leave]
    rw [ihr S Z]
    simp

theorem stepEvN_enter (S : List Nat) (Z : List Int) (i : Nat) (off : Int) :
    stepEvN ⟨S, Z⟩ [] (.enterE i off) =
      ⟨[⟨S.length + 1, none, none, "O"⟩], ⟨i :: S, Z⟩, [], none⟩ := by
  simp [stepEvN, TraceAdapter.trace, startsWithHash_O, List.getLast?]

theorem stepEvN_leave (S : List Nat) (Z : List Int) (reg : List (Nat × String))
    (i : Nat) (off : Int) :
    stepEvN ⟨i :: S, Z⟩ reg (.leaveE off) =
      ⟨[⟨S.length + 1, none, none, "# O"⟩], ⟨S, Z⟩, reg, none⟩ := by
  simp [stepEvN, TraceAdapter.trace, startsWithHash_closeO]

theorem runEvsN_append (xs : List Ev) :
    ∀ (st : SessState) (reg : List (Nat × String)) (rs : List TraceRec)
      (st1 : SessState) (reg1 : List (Nat × String)) (ys : List Ev),
    runEvsN st reg xs = ⟨rs, st1, reg1, true⟩ →
    runEvsN st reg (xs ++ ys) =
      ⟨rs ++ (runEvsN st1 reg1 ys).recs, (runEvsN st1 reg1 ys).st,
       (runEvsN st1 reg1 ys).reg, (runEvsN st1 reg1 ys).ok⟩ := by
  induction xs with
  | nil =>
    intro st reg rs st1 reg1 ys h
    simp only [runEvsN, RunOut.mk.injEq] at h
    obtain ⟨h1, h2, h3, -⟩ := h
    subst h1; subst h2; subst h3
    simp
  | cons e es ih =>
    intro st reg rs st1 reg1 ys h
    simp only [List.cons_append, runEvsN] at h ⊢
    rcases hs : stepEvN st reg e with ⟨r1, sta, rga, err⟩
    rw [hs] at h
    cases err with
    | some er => simp at h
    | none =>
      simp only [] at h ⊢
      rcases hr : runEvsN sta rga es with ⟨rs2, st2, reg2, ok2⟩
      rw [hr] at h
      simp only [RunOut.mk.injEq] at h
      obtain ⟨h1, h2, h3, h4⟩ := h
      subst h2; subst h3; subst h4; subst h1
      have h5 := ih sta rga rs2 st2 reg2 ys hr
      rw [show es.append ys = es ++ ys from rfl, h5]
      simp [List.append_assoc]

theorem runEvsN_evsF (f : TForest) :
    ∀ (S : List Nat) (Z : List Int),
    runEvsN ⟨S, Z⟩ [] (evsF f) = ⟨expFN S.length f, ⟨S, Z⟩, [], true⟩ := by
  induction f with
  | nil =>
    intro S Z
    simp [evsF, expFN, runEvsN]
  | node i e l cs rest ihc ihr =>
    intro S Z
    rw [evsF, expFN]
    simp only [runEvsN, stepEvN_enter]
    have hc : runEvsN ⟨i :: S, Z⟩ [] (evsF cs) =
        ⟨expFN (S.length + 1) cs, ⟨i :: S, Z⟩, [], true⟩ := by
      have h0 := ihc (i :: S) Z
      simpa using h0
    rw [runEvsN_append (evsF cs) _ _ _ _ _ _ hc]
    simp only [runEvsN, stepEvN_leave]
    rw [ihr S Z]
    simp

theorem expFN_size_none (f : TForest) :
    ∀ (d : Nat) (r : TraceRec), r ∈ expFN d f → r.size = none := by
  induction f with
  | nil =>
    intro d r hr
    simp [expFN] at hr
  | node i e l cs rest ihc ihr =>
    intro d r hr
    simp only [expFN, List.mem_cons, List.mem_append] at hr
    rcases hr with h | (h | (h | h))
    · subst h; rfl
    · exact ihc (d + 1) r h
    · subst h; rfl
    · exact ihr d r h

theorem trace_some_eqlen (st : SessState) (reg : List (Nat × String)) (msg : String)
    (args : List Arg) (obj : Option Nat) (off : Int)
    (h : st.trace_stack.length = st.size_stack.length) :
    (TraceAdapter.trace st reg msg args obj (some off)).st.trace_stack.length =
      (TraceAdapter.trace st reg msg args obj (some off)).st.size_stack.length := by
  rcases st with ⟨S, Z⟩
  simp only at h
  by_cases hm : startsWithHash msg
  · cases Z with
    | nil => simpa [TraceAdapter.trace, hm] using h
    | cons s0 zr =>
      cases S with
      | nil =>
        simp only [List.length_nil, List.length_cons] at h
        omega
      | cons t tr =>
        simp only [List.length_cons] at h
        simp [TraceAdapter.trace, hm]
        omega
  · rcases obj with _ | n
    · rcases hl : args.getLast? with _ | a
      · simpa [TraceAdapter.trace, hm, hl] using h
      · cases a with
        | strA s => simpa [TraceAdapter.trace, hm, hl] using h
        | objA n =>
          simp [TraceAdapter.trace, hm, hl]
          omega
    · simp [TraceAdapter.trace, hm]
      omega

theorem roll_back_eqlen (st : SessState) (i : Nat)
    (h : st.trace_stack.length = st.size_stack.length) :
    (TraceAdapter.roll_back st i).1.trace_stack.length =
      (TraceAdapter.roll_back st i).1.size_stack.length := by
  rcases st with ⟨S, Z⟩
  simp only at h
  cases S with
  | nil => simpa [TraceAdapter.roll_back] using h
  | cons t tr =>
    by_cases hi : i = t
    · cases Z with
      | nil =>
        simp only [List.length_nil, List.length_cons] at h
        omega
      | cons s0 zr =>
        simp only [List.length_cons] at h
        simp [TraceAdapter.roll_back, hi]
        omega
    · simpa [TraceAdapter.roll_back, hi] using h

/-! ## Claims -/

/-- C1: for every balanced sequence of enter/leave trace calls (encoded as a
forest `f` of enter/leave pairs with byte offsets) on an enabled session
whose byte-offset query works on every call, the run succeeds with no
exception, returns the stacks to their initial (empty) state, and produces
exactly the records listed by `expF 0 f`: each OPEN record carries its
1-based nesting position as `depth`, the matching CLOSE record carries the
same pre-pop depth, and the CLOSE record's `size` equals the byte offset at
the leave minus the offset recorded at the corresponding enter.  (Proved
without needing the claim's distinct-identities hypothesis: the adapter
never compares identities on a CLOSE call.) -/
theorem claim_C1_balanced_trace (f : TForest) :
    runEvs ⟨[], []⟩ [] (evsF f) = ⟨expF 0 f, ⟨[], []⟩, [], true⟩ := by
  simpa using runEvs_evsF f [] []

/-- C5 counterexample: byte-offset availability is re-evaluated on every
call, not latched for the session.  After an enter where the query is
unavailable (`tell = none`), a later enter/leave pair with the query
available again produces a CLOSE record carrying `size = 17 - 10 = 7`,
contradicting "once unavailable, stays unavailable ... no CLOSE record ever
carries a sizeDelta". -/
theorem claim_C5_cex :
    (TraceAdapter.trace
      (TraceAdapter.trace
        (TraceAdapter.trace ⟨[], []⟩ [] "O" [Arg.objA 1] none none).st
        [] "O" [Arg.objA 2] none (some 10)).st
      [] "# O" [] none (some 17)).recs = [⟨2, some 7, none, "# O"⟩] := by
  decide

/-- C5 (amended): availability of the byte-offset query is decided per call
(no session latch); for a never-seekable sink, where the query is
unavailable on every call, every balanced enter/leave sequence still tracks
depth exactly as with offsets (records `expFN 0 f`), terminates without
exception with the stacks back in their initial state, and no emitted
record ever carries a size delta. -/
theorem claim_C5_neverseekable (f : TForest) :
    runEvsN ⟨[], []⟩ [] (evsF f) = ⟨expFN 0 f, ⟨[], []⟩, [], true⟩ ∧
    ∀ r ∈ (runEvsN ⟨[], []⟩ [] (evsF f)).recs, r.size = none := by
  have h0 : runEvsN ⟨[], []⟩ [] (evsF f) = ⟨expFN 0 f, ⟨[], []⟩, [], true⟩ := by
    simpa using runEvsN_evsF f [] []
  refine ⟨h0, ?_⟩
  intro r hr
  rw [h0] at hr
  exact expFN_size_none f 0 r hr

/-- C5 witness: the amended theorem applied to the one-node forest; its OPEN
record has no size delta. -/
theorem claim_C5_witness : (⟨1, none, none, "O"⟩ : TraceRec).size = none :=
  (claim_C5_neverseekable (TForest.node 1 0 0 .nil .nil)).2 ⟨1, none, none, "O"⟩ (by decide)

/-- C4 counterexample: an enter call whose byte-offset query is unavailable
pushes the identity stack but not the size stack, and raises nothing, so the
two stacks end with lengths 1 and 0 — the claimed invariant fails for
sessions where the query is unavailable on some calls. -/
theorem claim_C4_cex :
    (TraceAdapter.trace ⟨[], []⟩ [] "O" [Arg.objA 1] none none).st.trace_stack.length = 1 ∧
    (TraceAdapter.trace ⟨[], []⟩ [] "O" [Arg.objA 1] none none).st.size_stack.length = 0 ∧
    (TraceAdapter.trace ⟨[], []⟩ [] "O" [Arg.objA 1] none none).err = none := by
  decide

/-- C4 (amended): in an enabled session in which the byte-offset query
succeeds on every trace call, the identity stack and the size stack have
equal length at all times: any sequence of trace/roll_back operations
started from equal-length stacks (in particular the empty initial stacks)
ends with equal-length stacks, exceptions included — and since the start
state is universally quantified, the invariant holds after every prefix. -/
theorem claim_C4_eqlen (ops : List Op) :
    ∀ (st : SessState) (reg : List (Nat × String)),
    (∀ op ∈ ops, opTellOk op = true) →
    st.trace_stack.length = st.size_stack.length →
    (runOps st reg ops).1.trace_stack.length = (runOps st reg ops).1.size_stack.length := by
  induction ops with
  | nil =>
    intro st reg hok h
    simpa [runOps] using h
  | cons op ops ih =>
    intro st reg hok h
    have hop := hok op (List.mem_cons_self op ops)
    have hops : ∀ o ∈ ops, opTellOk o = true := fun o ho => hok o (List.mem_cons_of_mem _ ho)
    cases op with
    | traceOp msg args obj tell =>
      rcases tell with _ | off
      · simp [opTellOk] at hop
      · simp only [runOps]
        rcases ht : TraceAdapter.trace st reg msg args obj (some off) with ⟨rs, st1, reg1, err⟩
        have hst1 : st1.trace_stack.length = st1.size_stack.length := by
          have h2 := trace_some_eqlen st reg msg args obj off h
          rw [ht] at h2
          exact h2
        cases err with
        | some e2 => simpa using hst1
        | none =>
          simp only []
          exact ih st1 reg1 hops hst1
    | rollbackOp i =>
      simp only [runOps]
      rcases hb : TraceAdapter.roll_back st i with ⟨st1, err⟩
      have hst1 : st1.trace_stack.length = st1.size_stack.length := by
        have h2 := roll_back_eqlen st i h
        rw [hb] at h2
        exact h2
      cases err with
      | some e2 => simpa using hst1
      | none =>
        simp only []
        exact ih st1 reg hops hst1

/-- C4 witness: the amended invariant applied to a concrete one-call
sequence with the byte offset available. -/
theorem claim_C4_witness :
    (runOps ⟨[], []⟩ [] [Op.traceOp "O" [Arg.objA 1] none (some 5)]).1.trace_stack.length =
      (runOps ⟨[], []⟩ [] [Op.traceOp "O" [Arg.objA 1] none (some 5)]).1.size_stack.length :=
  claim_C4_eqlen [Op.traceOp "O" [Arg.objA 1] none (some 5)] ⟨[], []⟩ [] (by decide) rfl

/-- C3 counterexample: a CLOSE trace call on an enabled session with an
empty identity stack raises `IndexError` (from popping an empty stack) with
no record emitted, instead of failing safe as a no-op. -/
theorem claim_C3_cex :
    (TraceAdapter.trace ⟨[], []⟩ [] "# X" [] none (some 0)).err = some TraceErr.idxErr ∧
    (TraceAdapter.trace ⟨[], []⟩ [] "# X" [] none (some 0)).recs = [] := by
  decide

/-- C3 (amended): a leave/CLOSE trace call made when the identity stack is
empty always raises `IndexError` out of the tracing facility (the code fails
loudly, not safe): whatever the size stack, registry, arguments and
byte-offset availability, the call's error is `IndexError`.  Only
`roll_back` is a defensive no-op. -/
theorem claim_C3_underflow_raises (Z : List Int) (reg : List (Nat × String))
    (msg : String) (args : List Arg) (obj : Option Nat) (tell : Option Int)
    (hm : startsWithHash msg = true) :
    (TraceAdapter.trace ⟨[], Z⟩ reg msg args obj tell).err = some TraceErr.idxErr := by
  rcases tell with _ | off
  · simp [TraceAdapter.trace, hm]
  · cases Z with
    | nil => simp [TraceAdapter.trace, hm]
    | cons s0 zr => simp [TraceAdapter.trace, hm]

/-- C3 witness: the amended theorem at a concrete CLOSE call with the byte
offset unavailable and a nonempty size stack. -/
theorem claim_C3_witness :
    (TraceAdapter.trace ⟨[], [3]⟩ [] "# W" [] none none).err = some TraceErr.idxErr :=
  claim_C3_underflow_raises [3] [] "# W" [] none none (by decide)

/-- C7 counterexample: a rollback whose identity matches the stack top but
whose size stack is empty (a state reachable when the byte offset was
unavailable at the enter) does not pop one entry from each stack and return:
it pops the identity stack and then raises `IndexError` from
`_size_stack.pop()`. -/
theorem claim_C7_cex :
    TraceAdapter.roll_back ⟨[5], []⟩ 5 = (⟨[], []⟩, some TraceErr.idxErr) := by
  decide

/-- C7 (amended): a rollback whose identity does not match the identity
stack top (or with an empty identity stack) is a no-op that raises nothing
and emits nothing (`roll_back` contains no logging call); when the top
matches and the size stack is nonempty — as in any session whose pushes
were aligned — it pops exactly one entry from each stack without error;
when the top matches but the size stack is empty it raises `IndexError`. -/
theorem claim_C7_rollback (st : SessState) (n : Nat) :
    (st.trace_stack.head? ≠ some n → TraceAdapter.roll_back st n = (st, none)) ∧
    (∀ tr zr s0, st.trace_stack = n :: tr → st.size_stack = s0 :: zr →
       TraceAdapter.roll_back st n = (⟨tr, zr⟩, none)) ∧
    (st.trace_stack.head? = some n → st.size_stack = [] →
       (TraceAdapter.roll_back st n).2 = some TraceErr.idxErr) := by
  rcases st with ⟨S, Z⟩
  refine ⟨?_, ?_, ?_⟩
  · intro hne
    cases S with
    | nil => rfl
    | cons t tr =>
      have ht : ¬n = t := by
        intro hnt
        exact hne (by simp [hnt])
      simp [TraceAdapter.roll_back, ht]
  · intro tr zr s0 h1 h2
    simp only at h1 h2
    subst h1
    subst h2
    simp [TraceAdapter.roll_back]
  · intro hh hz
    cases S with
    | nil => simp at hh
    | cons t tr =>
      have ht : n = t := by simpa using hh.symm
      simp only at hz
      subst ht
      subst hz
      simp [TraceAdapter.roll_back]

/-- C7 witness: the amended theorem's matching case at a concrete aligned
state. -/
theorem claim_C7_witness :
    TraceAdapter.roll_back ⟨[1, 2], [10, 20]⟩ 1 = (⟨[2], [20]⟩, none) :=
  (claim_C7_rollback ⟨[1, 2], [10, 20]⟩ 1).2.1 [2] [20] 10 rfl rfl

/-- C8: on an enabled session, an OPEN trace call (message not starting with
the close marker) raises `TypeError` exactly when no explicit `obj` keyword
argument is supplied and the positional arguments are empty or end in a
string; when it raises, nothing was emitted and neither the stacks nor the
registry were mutated; and `TypeError` is the only error an OPEN call can
raise. -/
theorem claim_C8_missing_obj (st : SessState) (reg : List (Nat × String)) (msg : String)
    (args : List Arg) (obj : Option Nat) (tell : Option Int)
    (hm : startsWithHash msg = false) :
    ((TraceAdapter.trace st reg msg args obj tell).err = some TraceErr.typeErr ↔
       obj = none ∧ (args = [] ∨ ∃ s, args.getLast? = some (Arg.strA s))) ∧
    ((TraceAdapter.trace st reg msg args obj tell).err = some TraceErr.typeErr →
       TraceAdapter.trace st reg msg args obj tell = ⟨[], st, reg, some TraceErr.typeErr⟩) ∧
    (∀ e, (TraceAdapter.trace st reg msg args obj tell).err = some e → e = TraceErr.typeErr) := by
  rcases obj with _ | n
  · rcases hl : args.getLast? with _ | a
    · have ha : args = [] := List.getLast?_eq_none_iff.mp hl
      rcases tell with _ | off
      · simp [TraceAdapter.trace, hm, hl, ha]
      · simp [TraceAdapter.trace, hm, hl, ha]
    · cases a with
      | strA s =>
        rcases tell with _ | off
        · simp [TraceAdapter.trace, hm, hl]
        · simp [TraceAdapter.trace, hm, hl]
      | objA n =>
        have hne : args ≠ [] := by
          intro ha
          rw [ha] at hl
          simp at hl
        rcases tell with _ | off
        · simp [TraceAdapter.trace, hm, hl, hne]
        · simp [TraceAdapter.trace, hm, hl, hne]
  · rcases tell with _ | off
    · simp [TraceAdapter.trace, hm]
    · simp [TraceAdapter.trace, hm]

/-- C8 witness: the theorem at a concrete OPEN call with no object: the call
raises `TypeError` and leaves everything untouched. -/
theorem claim_C8_witness :
    TraceAdapter.trace ⟨[7], [2]⟩ [(1, "v")] "Obj" [Arg.strA "t"] none (some 4) =
      ⟨[], ⟨[7], [2]⟩, [(1, "v")], some TraceErr.typeErr⟩ :=
  (claim_C8_missing_obj ⟨[7], [2]⟩ [(1, "v")] "Obj" [Arg.strA "t"] none (some 4)
      (by decide)).2.1
    ((claim_C8_missing_obj ⟨[7], [2]⟩ [(1, "v")] "Obj" [Arg.strA "t"] none (some 4)
      (by decide)).1.mpr ⟨rfl, Or.inr ⟨"t", rfl⟩⟩)

/-- C2 counterexample: the suffix is driven by the record's annotations,
not by its depth — a depth-0 record carrying a size annotation renders the
nonempty suffix `" [5 B]"`, contradicting "no prefix and no suffix when
d == 0".  (Such a record is reachable: a CLOSE call on a state with empty
identity stack but nonempty size stack emits a depth-0 record with a size
before raising on the final pop.) -/
theorem claim_C2_cex :
    (TraceFormatter.format ⟨0, some 5, none, "plain"⟩ true).1 = "" ∧
    (TraceFormatter.format ⟨0, some 5, none, "plain"⟩ true).2 ≠ "" := by
  decide

/-- C2 (amended): for every record rendered with a Unicode-capable sink:
at depth 0 there is no prefix, and no suffix provided the record carries no
name or size annotation (the suffix depends only on the annotations); for a
CLOSE line (message starting with the close marker) at depth d ≥ 1 the
prefix is (d-1) vertical-continuation glyphs followed by one corner glyph
and a space; for an OPEN line the prefix is the single branch glyph at
depth 1 and (d-2) continuation glyphs followed by the join-branch pair at
depth d > 1. -/
theorem claim_C2_decoration (r : TraceRec) :
    (r.depth = 0 → (TraceFormatter.format r true).1 = "" ∧
       (r.varname = none → r.size = none → (TraceFormatter.format r true).2 = "")) ∧
    (0 < r.depth → startsWithHash r.msg = true →
       (TraceFormatter.format r true).1 = glyphRep "│" (r.depth - 1) ++ "└" ++ " ") ∧
    (startsWithHash r.msg = false → r.depth = 1 →
       (TraceFormatter.format r true).1 = "┬" ++ " ") ∧
    (startsWithHash r.msg = false → 1 < r.depth →
       (TraceFormatter.format r true).1 = glyphRep "│" (r.depth - 2) ++ "├┬" ++ " ") := by
  rcases r with ⟨d, sz, vn, m⟩
  refine ⟨?_, ?_, ?_, ?_⟩
  · intro hd
    subst hd
    refine ⟨by simp [TraceFormatter.format], ?_⟩
    intro hv hs
    subst hv
    subst hs
    simp [TraceFormatter.format]
  · intro hd hm
    simp [TraceFormatter.format, hd, hm]
  · intro hm hd
    subst hd
    simp [TraceFormatter.format, hm]
  · intro hm hd
    have hd2 : 1 < d := hd
    have h1 : 0 < d := by omega
    have h2 : ¬d = 1 := by omega
    simp [TraceFormatter.format, hm, h1, h2]

/-- C2 witness: the amended theorem at a CLOSE record of depth 2. -/
theorem claim_C2_witness :
    (TraceFormatter.format ⟨2, none, none, "# F2"⟩ true).1 =
      glyphRep "│" 1 ++ "└" ++ " " :=
  (claim_C2_decoration ⟨2, none, none, "# F2"⟩).2.1 (by decide) (by decide)

/-- C6 counterexample: the name-annotation condition is on the size stack
and on per-call offset availability, not on the identity stack depth.
First call: on a session whose size stack lags (offset was unavailable at
an earlier enter), the annotation is attached on an OPEN at identity depth
4.  Second call: an OPEN at identity depth 3 whose registry holds the
identity but whose byte offset is unavailable gets no annotation and the
registry entry is not consumed. -/
theorem claim_C6_cex :
    (TraceAdapter.trace ⟨[9, 8, 7], [0, 0]⟩ [(4, "y")] "O" [] (some 4) (some 10)).recs =
      [⟨4, none, some "y", "O"⟩] ∧
    (TraceAdapter.trace ⟨[2, 1], []⟩ [(3, "x")] "O" [] (some 3) none).recs =
      [⟨3, none, none, "O"⟩] ∧
    (TraceAdapter.trace ⟨[2, 1], []⟩ [(3, "x")] "O" [] (some 3) none).reg = [(3, "x")] := by
  decide

/-- C6 (amended): on an OPEN trace call with explicit object identity `n`,
the variable-name annotation is attached exactly when the call's byte
offset is available, the size stack reaches length 3 after its push, and
the registry holds `n` — and exactly then the registry entry is consumed;
otherwise the record carries no name and the registry is untouched.  (When
the offset has been available at every call of the session the size-stack
length equals the identity-stack depth, which recovers the claimed
depth-3 reading.) -/
theorem claim_C6_varname (S : List Nat) (Z : List Int) (reg : List (Nat × String))
    (n : Nat) (off : Int) (msg : String) (hm : startsWithHash msg = false) :
    ((TraceAdapter.trace ⟨S, Z⟩ reg msg [] (some n) (some off)).recs =
      [⟨S.length + 1, none, if Z.length = 2 then (regPop reg n).1 else none, msg⟩]) ∧
    ((TraceAdapter.trace ⟨S, Z⟩ reg msg [] (some n) (some off)).reg =
      if Z.length = 2 then (regPop reg n).2 else reg) ∧
    ((TraceAdapter.trace ⟨S, Z⟩ reg msg [] (some n) none).recs =
      [⟨S.length + 1, none, none, msg⟩]) ∧
    ((TraceAdapter.trace ⟨S, Z⟩ reg msg [] (some n) none).reg = reg) ∧
    (∀ v, reg.lookup n = some v →
       (regPop reg n).1 = some v ∧ (regPop reg n).2 = reg.eraseP (fun p => p.1 == n)) ∧
    (reg.lookup n = none → regPop reg n = (none, reg)) := by
  have hiff : ((off :: Z).length = 3) ↔ (Z.length = 2) := by
    simp only [List.length_cons]
    omega
  refine ⟨?_, ?_, ?_, ?_, ?_, ?_⟩
  · by_cases hz : Z.length = 2 <;> simp [TraceAdapter.trace, hm, hiff, hz]
  · by_cases hz : Z.length = 2 <;> simp [TraceAdapter.trace, hm, hiff, hz]
  · simp [TraceAdapter.trace, hm]
  · simp [TraceAdapter.trace, hm]
  · intro v hv
    simp [regPop, hv]
  · intro hv
    simp [regPop, hv]

/-- C6 witness: the amended theorem at a depth-1 OPEN call with working
offset: no annotation is attached. -/
theorem claim_C6_witness :
    (TraceAdapter.trace ⟨[], []⟩ [] "V" [] (some 1) (some 0)).recs =
      [⟨1, none, none, "V"⟩] := by
  have h := (claim_C6_varname [] [] [] 1 0 "V" (by decide)).1
  simpa using h

theorem effLevel_restore (w : LogWorld) (hs : List Nat) (ks : List (Nat × HandlerKind))
    (ni : Nat) (cl : List Nat) :
    getEffectiveLevel
        { level := getEffectiveLevel w, rootLevel := w.rootLevel, handlers := hs,
          kinds := ks, nextId := ni, closed := cl } = getEffectiveLevel w := by
  unfold getEffectiveLevel
  by_cases h : w.level = 0
  · simp [h]
  · simp [h]

theorem swap_restore_perm (hs : List Nat) (h : Nat)
    (hmem : stderrId ∈ hs) (hnodup : hs.Nodup) (hfresh : h ∉ hs) :
    (addHandler (removeHandler (addHandler (removeHandler hs stderrId) h) h) stderrId).Perm hs := by
  unfold addHandler removeHandler
  have h1 : h ∉ hs.erase stderrId := fun hx => hfresh (List.mem_of_mem_erase hx)
  rw [if_neg h1]
  have h2 : (hs.erase stderrId ++ [h]).erase h = hs.erase stderrId := by
    rw [List.erase_append_right _ h1]
    simp
  rw [h2]
  have h3 : stderrId ∉ hs.erase stderrId := by
    intro hx
    exact absurd ((List.Nodup.mem_erase_iff hnodup).mp hx).1 (by simp)
  rw [if_neg h3]
  exact (List.perm_append_singleton _ _).trans (List.perm_cons_erase hmem).symm

theorem getEffectiveLevel_mk (lv rl : Nat) (hs : List Nat)
    (ks : List (Nat × HandlerKind)) (ni : Nat) (cl : List Nat) :
    getEffectiveLevel ⟨lv, rl, hs, ks, ni, cl⟩ = if lv ≠ 0 then lv else rl := rfl

/-- C9: for every prior logger state (stderr handler attached, no duplicate
handlers, fresh handler identities) and every `TraceManager` argument,
entering and then exiting the scoped session restores the logger's
effective level to its value before entry and restores the attached
handler multiset (same handler objects); with no redirection the handler
list and closed set are untouched bit for bit; a caller-supplied stream
handler is never closed; and for a path argument the session's own
`FileHandler` (opened with that path and mode on entry) is closed on
exit. -/
theorem claim_C9_restore (w : LogWorld) (tm : TraceManager)
    (hmem : stderrId ∈ w.handlers) (hnodup : w.handlers.Nodup)
    (hfresh : w.nextId ∉ w.handlers) :
    getEffectiveLevel (tm.exit (tm.enter w).2 (tm.enter w).1) = getEffectiveLevel w ∧
    (tm.exit (tm.enter w).2 (tm.enter w).1).handlers.Perm w.handlers ∧
    (tm.file = none → (tm.exit (tm.enter w).2 (tm.enter w).1).handlers = w.handlers ∧
       (tm.exit (tm.enter w).2 (tm.enter w).1).closed = w.closed) ∧
    (tm.file_is_stream = true → (tm.exit (tm.enter w).2 (tm.enter w).1).closed = w.closed) ∧
    (∀ p, tm.file = some (.path p) →
       (tm.exit (tm.enter w).2 (tm.enter w).1).closed = w.nextId :: w.closed ∧
       (tm.enter w).1.kinds.lookup w.nextId = some (.fileK p tm.mode)) := by
  rcases w with ⟨lv, rl, hs, ks, ni, cl⟩
  simp only at hmem hnodup hfresh
  rcases tm with ⟨file, mode⟩
  cases file with
  | none =>
    simp only [TraceManager.enter, TraceManager.exit, TraceManager.file_is_stream]
    exact ⟨effLevel_restore _ hs ks ni cl, List.Perm.refl hs, fun _ => ⟨trivial, trivial⟩,
      fun h => trivial, fun p hp => absurd hp (by simp)⟩
  | some fa =>
    cases fa with
    | stream sid =>
      simp only [TraceManager.enter, TraceManager.exit, TraceManager.file_is_stream]
      simp only [if_true, getEffectiveLevel_mk]
      refine ⟨?_, swap_restore_perm hs ni hmem hnodup hfresh,
        fun hp => absurd hp (by simp), fun _ => trivial, fun q hq => absurd hq (by simp)⟩
      by_cases h : lv = 0 <;> simp [h]
    | path p =>
      simp only [TraceManager.enter, TraceManager.exit, TraceManager.file_is_stream]
      simp only [Bool.false_eq_true, if_false, getEffectiveLevel_mk]
      refine ⟨?_, swap_restore_perm hs ni hmem hnodup hfresh,
        fun hp => absurd hp (by simp), fun hq => absurd hq (by simp), fun q hq => ?_⟩
      · by_cases h : lv = 0 <;> simp [h]
      · have hq2 : p = q := by
          simpa using hq
        subst hq2
        exact ⟨trivial, by simp [List.lookup]⟩

/-- C9 witness: the theorem at the module's initial logger state (level
WARNING via root, the stderr handler attached) and a path redirect. -/
theorem claim_C9_witness :
    ((⟨some (.path "out.txt"), "a"⟩ : TraceManager).exit
        ((⟨some (.path "out.txt"), "a"⟩ : TraceManager).enter
          ⟨0, 30, [0], [(0, .stderrK)], 1, []⟩).2
        ((⟨some (.path "out.txt"), "a"⟩ : TraceManager).enter
          ⟨0, 30, [0], [(0, .stderrK)], 1, []⟩).1).handlers.Perm [0] :=
  (claim_C9_restore ⟨0, 30, [0], [(0, .stderrK)], 1, []⟩ ⟨some (.path "out.txt"), "a"⟩
    (by decide) (by decide) (by decide)).2.1

/-- The level names the claim calls recognized: the standard level names of
the logging module plus the custom TRACE name. -/
def recognizedLevelName (s : String) : Bool :=
  s == "CRITICAL" || s == "FATAL" || s == "ERROR" || s == "WARN" || s == "WARNING" ||
  s == "INFO" || s == "DEBUG" || s == "NOTSET" || s == "TRACE"

/-- C10: for every string argument that is not a recognized level name, the
toggle function raises nothing (it is total), leaves the logger level
unchanged, and returns a `TraceManager` whose `file` is that string as a
path (to be opened as the redirect target on entry); a recognized level
name sets the logger level immediately and returns nothing; a boolean sets
the level to TRACE (true) or WARNING (false) and returns nothing. -/
theorem claim_C10_toggle (w : LogWorld) (mode s : String) :
    (recognizedLevelName s = false →
       trace (.strA s) mode w = (w, some ⟨some (.path s), mode⟩)) ∧
    (recognizedLevelName s = true →
       ∃ l, nameOrBoolToLevel (.strA s) = some l ∧
         trace (.strA s) mode w = ({ w with level := l }, none)) ∧
    (∀ b, trace (.boolA b) mode w =
       ({ w with level := if b then TRACE else WARNING }, none)) := by
  refine ⟨?_, ?_, ?_⟩
  · intro h
    have hnone : nameOrBoolToLevel (.strA s) = none := by
      simp only [recognizedLevelName, Bool.or_eq_false_iff, beq_eq_false_iff_ne] at h
      obtain ⟨⟨⟨⟨⟨⟨⟨⟨h1, h2⟩, h3⟩, h4⟩, h5⟩, h6⟩, h7⟩, h8⟩, h9⟩ := h
      simp [nameOrBoolToLevel, nameToLevel, h1, h2, h3, h4, h5, h6, h7, h8, h9]
    simp [trace, hnone]
  · intro h
    simp only [recognizedLevelName, Bool.or_eq_true, beq_iff_eq] at h
    rcases h with ((((((((h | h) | h) | h) | h) | h) | h) | h) | h) <;> subst h <;>
      exact ⟨_, rfl, rfl⟩
  · intro b
    cases b <;> simp [trace, nameOrBoolToLevel]

/-- C10 witness: an unrecognized string leaves the level untouched and
yields the scoped manager with that string as path. -/
theorem claim_C10_witness :
    trace (.strA "out.txt") "a" ⟨0, 30, [0], [(0, .stderrK)], 1, []⟩ =
      (⟨0, 30, [0], [(0, .stderrK)], 1, []⟩, some ⟨some (.path "out.txt"), "a"⟩) :=
  (claim_C10_toggle ⟨0, 30, [0], [(0, .stderrK)], 1, []⟩ "a" "out.txt").1 (by decide)

end DillLogging

